import Mathlib

/-!
Shallow embedding of the `zendesk-usefull-custom-hooks` library
(React hooks for the Zendesk Custom Objects Records API).

The embedding follows the TypeScript/JavaScript sources:
  * `src/utils.ts` — `convertPathParams`, `convertQueryParams`;
  * `src/lib/core.ts` — `createNetworkClient` / `fire`;
  * `src/hooks/query.ts` — `useQueryCustomObjects`;
  * `src/hooks/insert.ts` — `usePostCustomObjects`;
  * `src/hooks/custom-objects/update.ts` — `useUpdateCustomObjects`;
  * `src/hooks/remove.ts` — `useDeleteCustomObjects`.

JavaScript values appearing in the hooks are modelled by the inductive
`JsValue` (numbers are modelled as integers: every numeric literal the
library manipulates is an integer).  Thrown exceptions are modelled with
`Except String`.  The external caching library's read cache is modelled
explicitly where a claim depends on invalidation behaviour.
-/

namespace Zendesk

/-- JavaScript values (the fragment the library manipulates). -/
inductive JsValue where
  | jnull : JsValue
  | jbool : Bool → JsValue
  | jnum : Int → JsValue
  | jstr : String → JsValue
  | jarr : List JsValue → JsValue
  | jobj : List (String × JsValue) → JsValue
deriving Repr

/-- JavaScript truthiness for the modelled fragment
(`null`, `false`, `0` and `""` are falsy; arrays and objects are truthy). -/
def isTruthy : JsValue → Bool
  | JsValue.jnull => false
  | JsValue.jbool b => b
  | JsValue.jnum n => decide (n ≠ 0)
  | JsValue.jstr s => decide (s ≠ "")
  | JsValue.jarr _ => true
  | JsValue.jobj _ => true

/-- `typeof v === 'string'`. -/
def isString : JsValue → Bool
  | JsValue.jstr _ => true
  | _ => false

/-- `typeof v === 'object'` (in JavaScript this also holds for `null`
and for arrays). -/
def typeofIsObject : JsValue → Bool
  | JsValue.jobj _ => true
  | JsValue.jarr _ => true
  | JsValue.jnull => true
  | _ => false

/-- `v !== null`. -/
def JsValue.isNull : JsValue → Bool
  | JsValue.jnull => true
  | _ => false

/-- A `string | number` value (the type of path/query parameter values). -/
inductive Prim where
  | pstr : String → Prim
  | pnum : Int → Prim
deriving Repr, DecidableEq

/-- JavaScript string coercion of a `string | number` value. -/
def Prim.toStr : Prim → String
  | Prim.pstr s => s
  | Prim.pnum n => toString n

/-- Inject a `string | number` value into `JsValue`. -/
def Prim.toJs : Prim → JsValue
  | Prim.pstr s => JsValue.jstr s
  | Prim.pnum n => JsValue.jnum n

/-- Lower hexadecimal digit, as used by `JSON.stringify` control escapes. -/
def hexDigit (n : Nat) : Char :=
  if n < 10 then Char.ofNat (48 + n) else Char.ofNat (87 + n)

/-- `JSON.stringify` escaping of one character inside a string literal. -/
def escapeChar (c : Char) : String :=
  if c = Char.ofNat 34 then "\\\""
  else if c = Char.ofNat 92 then "\\\\"
  else if c = Char.ofNat 8 then "\\b"
  else if c = Char.ofNat 12 then "\\f"
  else if c = Char.ofNat 10 then "\\n"
  else if c = Char.ofNat 13 then "\\r"
  else if c = Char.ofNat 9 then "\\t"
  else if c.toNat < 32 then
    "\\u00" ++ String.mk [hexDigit (c.toNat / 16), hexDigit (c.toNat % 16)]
  else String.mk [c]

/-- `JSON.stringify` rendering of a string literal. -/
def escapeString (s : String) : String :=
  "\"" ++ String.join (s.data.map escapeChar) ++ "\""

mutual

/-- `JSON.stringify` on the modelled `JsValue` fragment
(object keys keep insertion order, as in JavaScript). -/
def stringifyJs : JsValue → String
  | JsValue.jnull => "null"
  | JsValue.jbool true => "true"
  | JsValue.jbool false => "false"
  | JsValue.jnum n => toString n
  | JsValue.jstr s => escapeString s
  | JsValue.jarr xs => "[" ++ stringifyArr xs ++ "]"
  | JsValue.jobj fs => "\x7b" ++ stringifyObj fs ++ "\x7d"

/-- Comma-separated `JSON.stringify` of array elements. -/
def stringifyArr : List JsValue → String
  | [] => ""
  | [x] => stringifyJs x
  | x :: y :: xs => stringifyJs x ++ "," ++ stringifyArr (y :: xs)

/-- Comma-separated `JSON.stringify` of object members. -/
def stringifyObj : List (String × JsValue) → String
  | [] => ""
  | [(k, v)] => escapeString k ++ ":" ++ stringifyJs v
  | (k, v) :: f :: fs =>
      escapeString k ++ ":" ++ stringifyJs v ++ "," ++ stringifyObj (f :: fs)

end

/-- `pat` is a prefix of `s` (character lists). -/
def isPrefixOfL : List Char → List Char → Bool
  | [], _ => true
  | _ :: _, [] => false
  | p :: ps, c :: cs => if p = c then isPrefixOfL ps cs else false

/-- Index of the first occurrence of `pat` in `s`, if any
(the search performed by JavaScript `String.prototype.replace` with a
string pattern). -/
def findSub (pat : List Char) : List Char → Option Nat
  | [] => if isPrefixOfL pat [] then some 0 else none
  | c :: cs =>
      if isPrefixOfL pat (c :: cs) then some 0
      else (findSub pat cs).map (fun i => i + 1)

/-- ECMAScript `GetSubstitution` for a string-pattern `replace` call
(no capture groups): `$$` is a literal dollar, `$&` the matched text,
a dollar followed by a backquote the text before the match, and a
dollar followed by a quote the text after the match; any other dollar
is literal. -/
def getSubstitution (matched before after : List Char) : List Char → List Char
  | [] => []
  | [c] => [c]
  | c :: d :: rest =>
      if c = '$' then
        if d = '$' then '$' :: getSubstitution matched before after rest
        else if d = '&' then matched ++ getSubstitution matched before after rest
        else if d = Char.ofNat 96 then before ++ getSubstitution matched before after rest
        else if d = Char.ofNat 39 then after ++ getSubstitution matched before after rest
        else c :: getSubstitution matched before after (d :: rest)
      else c :: getSubstitution matched before after (d :: rest)

/-- JavaScript `s.replace(pat, repl)` with a string pattern: replaces the
first occurrence of `pat`, processing `$`-escapes in `repl`. -/
def replaceFirstStr (s pat repl : String) : String :=
  match findSub pat.data s.data with
  | none => s
  | some i =>
      String.mk (s.data.take i
        ++ getSubstitution pat.data (s.data.take i) (s.data.drop (i + pat.length)) repl.data
        ++ s.data.drop (i + pat.length))

/-- `convertPathParams` (src/utils.ts): folds `acc.replace(\x7b...\x7d, value)`
over the entries of the parameter map. -/
def convertPathParams (path : String) (params : List (String × Prim)) : String :=
  params.foldl
    (fun acc kv => replaceFirstStr acc ("\x7b" ++ kv.1 ++ "\x7d") kv.2.toStr)
    path

/-- `convertQueryParams` (src/utils.ts): appends `?k1=v1&k2=v2...` in map
iteration order, with no URL-encoding. -/
def convertQueryParams (path : String) (params : List (String × Prim)) : String :=
  path ++ "?" ++ String.intercalate "&" (params.map (fun kv => kv.1 ++ "=" ++ kv.2.toStr))

/-- The context value exposed by `CustomObjectsProvider` /
`useInternalZafClient`: a record holding the host transport handle.
`Z` is the (opaque) type of the handle. -/
structure ZafContext (Z : Type) where
  zaf : Z

/-- The options object passed to `createNetworkClient`
(`NetworkConnector` in src/types.ts).  The `zaf` field may hold any
value (`A`): `createNetworkClient` destructures only `customObjectKey`
and `timeout` and takes the transport handle from the context hook.
`timeout` is `none` when the caller supplies no timeout (`undefined`). -/
structure NetworkConnector (A : Type) where
  zaf : A
  customObjectKey : String
  timeout : Option Nat

/-- The payload accepted by `fire` (`FirePayload` in src/types.ts).
`data = JsValue.jnull` models a literal `null` body marker. -/
structure FirePayload where
  data : JsValue
  endpoint : String
  pathParams : Option (List (String × Prim))
  params : Option (List (String × Prim))
  method : String

/-- The argument object handed to the host transport
(`zaf.request({...})` in `fire`), together with the handle on which the
request is issued. -/
structure Request (Z : Type) where
  url : String
  method : String
  body : Option String
  timeout : Nat
  headers : List (String × String)
  secure : Bool
  handle : Z

/-- `createNetworkClient(options).fire(payload)` (src/lib/core.ts):
composes `baseEndpoint + customObjectKey + endpoint`, applies path and
query templating when the respective maps are present, serializes the
body unless `data` is `null`, and issues the request on the transport
handle read from the context (`useInternalZafClient`) — never on
`options.zaf`. -/
def fire {A Z : Type} (options : NetworkConnector A) (ctx : ZafContext Z)
    (payload : FirePayload) : Request Z :=
  let baseEndpoint := "/api/v2/custom_objects/"
  let url0 := baseEndpoint ++ options.customObjectKey ++ payload.endpoint
  let url1 := match payload.pathParams with
    | some ps => convertPathParams url0 ps
    | none => url0
  let url2 := match payload.params with
    | some ps => convertQueryParams url1 ps
    | none => url1
  { url := url2
    method := payload.method
    body := if payload.data.isNull then none else some (stringifyJs payload.data)
    timeout := match options.timeout with
      | none => 15000
      | some t => if t = 0 then 15000 else t
    headers := [("Content-Type", "application/json")]
    secure := true
    handle := ctx.zaf }

/-- The guard `!customObjectKey || typeof customObjectKey !== 'string'`
shared by all four hooks (and the analogous record-id guard): a value
passes exactly when it is a non-empty string, and the string is then
returned. -/
def validNonEmptyString : JsValue → Option String
  | JsValue.jstr s => if s = "" then none else some s
  | _ => none

/-- Observable callback/cache effects of a hook's `onSuccess` handler,
in execution order. -/
inductive HookEvent where
  | onSuccessCall : Option String → HookEvent
  | invalidateTag : List String → HookEvent
  | postActionCall : HookEvent
deriving Repr, DecidableEq

/-- The React Query cache key used by the Query hook for a resource key:
`[`query-custom-objects-KEY`, KEY]`. -/
def queryKeyOf (customObjectKey : String) : List String :=
  ["query-custom-objects-" ++ customObjectKey, customObjectKey]

/-- The invalidation tag used by the Insert and Delete hooks:
`[`query-custom-objects-KEY`]`. -/
def invalidationTagOf (customObjectKey : String) : List String :=
  ["query-custom-objects-" ++ customObjectKey]

/-- `tag` is a prefix of the cache key `k`. -/
def tagMatches : List String → List String → Bool
  | [], _ => true
  | _ :: _, [] => false
  | t :: ts, k :: ks => if t = k then tagMatches ts ks else false

/-- Model of the external caching library's read cache: a list of
(query key, cached value) entries.  The spec describes invalidation as
making cached reads for the tag stale so that a subsequent Query
triggers a fresh fetch; `invalidateQueries` matches every query whose
key extends the given tag. -/
def CacheState : Type := List (List String × Nat)

/-- Cached value for a query key, if a fresh entry exists. -/
def cacheLookup : CacheState → List String → Option Nat
  | [], _ => none
  | e :: rest, k => if e.1 = k then some e.2 else cacheLookup rest k

/-- Remove (invalidate) every cache entry whose key extends `tag`. -/
def invalidateMatching (tag : List String) : CacheState → CacheState
  | [] => []
  | e :: rest =>
      if tagMatches tag e.1 then invalidateMatching tag rest
      else e :: invalidateMatching tag rest

/-- Effect of one `onSuccess` event on the read cache (callbacks do not
touch the cache). -/
def applyEvent (c : CacheState) : HookEvent → CacheState
  | HookEvent.invalidateTag tag => invalidateMatching tag c
  | _ => c

/-- Run a list of events against the read cache. -/
def runEvents (c : CacheState) (es : List HookEvent) : CacheState :=
  es.foldl applyEvent c

/-- `true` exactly on cache-invalidation events. -/
def isInvalidateEvent : HookEvent → Bool
  | HookEvent.invalidateTag _ => true
  | _ => false

/-- The `searchBySingleField` parameter `\x7b by, value \x7d` of the Query
hook (the source field `by` is a Lean keyword, hence the quoted name). -/
structure SearchBy where
  «by» : String
  value : Prim

/-- The parameters of `useQueryCustomObjects` that determine its
request-building behaviour.  `customObjectKey` is kept as a raw
`JsValue` because the hook guards against non-string values at run
time; `filterCriteria = none` and `searchBySingleField = none` model an
absent (or `null`) parameter. -/
structure QueryHookParams where
  customObjectKey : JsValue
  filterCriteria : Option JsValue
  searchBySingleField : Option SearchBy
  refetchOnTabChange : Bool

/-- A successfully constructed Query hook: the React Query registration
it performs.  `request` is the transport request its `queryFn` issues
(`client.fire(...)` applied to the hook's payload). -/
structure QueryInstance (Z : Type) where
  queryKey : List String
  criteria : JsValue
  request : Request Z
  refetchOnWindowFocus : Bool
  staleTime : Nat

/-- `useQueryCustomObjects` (src/hooks/query.ts): validates the key,
rejects the simultaneous use of `filterCriteria` and
`searchBySingleField`, builds the effective filter (`criteria`), and
registers a POST search request built by `fire` on endpoint
`/\x7bcustomObjectKey\x7d/records/search` with path parameter
`customObjectKey`.  An `Except.error` models a synchronous `throw`
before any request exists. -/
def useQueryCustomObjects {Z : Type} (ctx : ZafContext Z) (p : QueryHookParams) :
    Except String (QueryInstance Z) :=
  match validNonEmptyString p.customObjectKey with
  | none => Except.error "invalid customObjectKey"
  | some customObjectKey =>
    match p.filterCriteria, p.searchBySingleField with
    | some _, some _ =>
        Except.error "You must choose either filterCriteria or searchBySingleField"
    | _, _ =>
      let criteria : JsValue :=
        match p.searchBySingleField with
        | some sb =>
            JsValue.jobj [("$and", JsValue.jarr
              [JsValue.jobj [("custom_object_fields." ++ sb.«by»,
                JsValue.jobj [("$eq", sb.value.toJs)])]])]
        | none =>
            match p.filterCriteria with
            | some f => f
            | none => JsValue.jobj []
      Except.ok
        { queryKey := queryKeyOf customObjectKey
          criteria := criteria
          request := fire
            { zaf := ctx.zaf, customObjectKey := customObjectKey, timeout := none } ctx
            { data := criteria
              endpoint := "/\x7bcustomObjectKey\x7d/records/search"
              pathParams := some [("customObjectKey", Prim.pstr customObjectKey)]
              params := none
              method := "POST" }
          refetchOnWindowFocus := p.refetchOnTabChange
          staleTime := 1000 * 60 * 1 }

/-- The `input` argument of the Insert hook's `execute`
(`name` and `custom_object_fields` kept raw: the hook validates them). -/
structure InsertInput where
  name : JsValue
  custom_object_fields : JsValue

/-- The `mutationFn` of `usePostCustomObjects` (src/hooks/insert.ts):
validates `input.name` (non-empty string) and
`input.custom_object_fields` (truthy and `typeof === 'object'`), then
fires POST `/records` with body
`\x7b custom_object_record: \x7b name, custom_object_fields \x7d \x7d`. -/
def insertMutationFn {Z : Type} (ctx : ZafContext Z) (customObjectKey : String)
    (input : InsertInput) : Except String (Request Z) :=
  if !(isTruthy input.name) || !(isString input.name) then
    Except.error "name is required and must be a string"
  else if !(isTruthy input.custom_object_fields) || !(typeofIsObject input.custom_object_fields) then
    Except.error "custom_object_fields is required and must be an object"
  else
    let body := JsValue.jobj [("custom_object_record", JsValue.jobj
      [("name", input.name), ("custom_object_fields", input.custom_object_fields)])]
    Except.ok (fire
      { zaf := ctx.zaf, customObjectKey := customObjectKey, timeout := none } ctx
      { data := body
        endpoint := "/records"
        pathParams := some [("customObjectKey", Prim.pstr customObjectKey)]
        params := none
        method := "POST" })

/-- The `onSuccess` handler of `usePostCustomObjects`: invalidates the
resource tag, then invokes `postActionFn` when provided. -/
def insertOnSuccessEvents (customObjectKey : String) (hasPostActionFn : Bool) :
    List HookEvent :=
  [HookEvent.invalidateTag (invalidationTagOf customObjectKey)]
    ++ (if hasPostActionFn then [HookEvent.postActionCall] else [])

/-- A successfully constructed Insert hook. -/
structure InsertInstance (Z : Type) where
  execute : InsertInput → Except String (Request Z)
  onSuccessEvents : List HookEvent

/-- `usePostCustomObjects` (src/hooks/insert.ts): validates the resource
key at construction time, before any request can be attempted. -/
def usePostCustomObjects {Z : Type} (ctx : ZafContext Z) (customObjectKey : JsValue)
    (hasPostActionFn : Bool) : Except String (InsertInstance Z) :=
  match validNonEmptyString customObjectKey with
  | none => Except.error "invalid customObjectKey"
  | some k =>
      Except.ok
        { execute := insertMutationFn ctx k
          onSuccessEvents := insertOnSuccessEvents k hasPostActionFn }

/-- The `input` argument of the Update hook's `execute`: an optional
(possibly falsy) `name` and a field mapping.  An absent `name` is
modelled by `JsValue.jnull` (like `undefined`, it is falsy, which is
all the hook tests). -/
structure UpdateInput where
  name : JsValue
  custom_object_fields : JsValue

/-- The `mutationFn` of `useUpdateCustomObjects`
(src/hooks/custom-objects/update.ts): builds the body (adding `name`
inside `custom_object_record` only when truthy), validates the record
id (non-empty string), then fires PUT `/records/\x7bid\x7d`. -/
def updateMutationFn {Z : Type} (ctx : ZafContext Z) (customObjectKey : String)
    (input : UpdateInput) (id : JsValue) : Except String (Request Z) :=
  let body := JsValue.jobj [("custom_object_record", JsValue.jobj
    ([("custom_object_fields", input.custom_object_fields)]
      ++ (if isTruthy input.name then [("name", input.name)] else [])))]
  match validNonEmptyString id with
  | none => Except.error "invalid recordId - must be provided in the mapped data"
  | some idStr =>
      Except.ok (fire
        { zaf := ctx.zaf, customObjectKey := customObjectKey, timeout := none } ctx
        { data := body
          endpoint := "/records/\x7bid\x7d"
          pathParams := some [("id", Prim.pstr idStr)]
          params := none
          method := "PUT" })

/-- The `onSuccess` handler of `useUpdateCustomObjects`: invokes
`onSuccessFn(id)` when provided, then `postActionFn` when provided.
It performs no cache invalidation. -/
def updateOnSuccessEvents (id : String) (hasOnSuccessFn hasPostActionFn : Bool) :
    List HookEvent :=
  (if hasOnSuccessFn then [HookEvent.onSuccessCall (some id)] else [])
    ++ (if hasPostActionFn then [HookEvent.postActionCall] else [])

/-- A successfully constructed Update hook. -/
structure UpdateInstance (Z : Type) where
  execute : UpdateInput → JsValue → Except String (Request Z)
  onSuccessEvents : String → List HookEvent

/-- `useUpdateCustomObjects` (src/hooks/custom-objects/update.ts):
validates the resource key at construction time. -/
def useUpdateCustomObjects {Z : Type} (ctx : ZafContext Z) (customObjectKey : JsValue)
    (hasOnSuccessFn hasPostActionFn : Bool) : Except String (UpdateInstance Z) :=
  match validNonEmptyString customObjectKey with
  | none => Except.error "invalid customObjectKey"
  | some k =>
      Except.ok
        { execute := updateMutationFn ctx k
          onSuccessEvents := fun id => updateOnSuccessEvents id hasOnSuccessFn hasPostActionFn }

/-- The `mutationFn` of `useDeleteCustomObjects` (src/hooks/remove.ts):
validates the record id (non-empty string), then fires DELETE
`/records/\x7bid\x7d` with a `null` body (no body is sent). -/
def deleteMutationFn {Z : Type} (ctx : ZafContext Z) (customObjectKey : String)
    (id : JsValue) : Except String (Request Z) :=
  match validNonEmptyString id with
  | none => Except.error "invalid record id"
  | some idStr =>
      Except.ok (fire
        { zaf := ctx, customObjectKey := customObjectKey, timeout := none } ctx
        { data := JsValue.jnull
          endpoint := "/records/\x7bid\x7d"
          pathParams := some [("id", Prim.pstr idStr)]
          params := none
          method := "DELETE" })

/-- The `onSuccess` handler of `useDeleteCustomObjects`: invokes
`onSuccessFn` when provided, invalidates the resource tag, then invokes
`postActionFn` when provided — in that order. -/
def deleteOnSuccessEvents (customObjectKey : String) (hasOnSuccessFn hasPostActionFn : Bool) :
    List HookEvent :=
  (if hasOnSuccessFn then [HookEvent.onSuccessCall none] else [])
    ++ [HookEvent.invalidateTag (invalidationTagOf customObjectKey)]
    ++ (if hasPostActionFn then [HookEvent.postActionCall] else [])

/-- A successfully constructed Delete hook.  Note that the source passes
the whole context object (not the unwrapped handle) as `options.zaf`
when creating its network client; `fire` never reads that field. -/
structure DeleteInstance (Z : Type) where
  execute : JsValue → Except String (Request Z)
  onSuccessEvents : List HookEvent

/-- `useDeleteCustomObjects` (src/hooks/remove.ts): validates the
resource key at construction time. -/
def useDeleteCustomObjects {Z : Type} (ctx : ZafContext Z) (customObjectKey : JsValue)
    (hasOnSuccessFn hasPostActionFn : Bool) : Except String (DeleteInstance Z) :=
  match validNonEmptyString customObjectKey with
  | none => Except.error "invalid customObjectKey"
  | some k =>
      Except.ok
        { execute := deleteMutationFn ctx k
          onSuccessEvents := deleteOnSuccessEvents k hasOnSuccessFn hasPostActionFn }

/-! ## Supporting lemmas -/

/-- `v` contains no dollar character (so `replace` uses it verbatim). -/
def noDollar (v : String) : Bool :=
  v.data.all (fun c => !(c == '$'))

/-- A replacement string without dollars is substituted verbatim. -/
theorem getSubstitution_of_noDollar (m b a : List Char) :
    ∀ repl : List Char, (∀ c ∈ repl, ¬ c = '$') → getSubstitution m b a repl = repl
  | [], _ => rfl
  | [c], _ => rfl
  | c :: d :: rest, h => by
      have hc : ¬ c = '$' := h c (List.mem_cons_self c (d :: rest))
      have hd : ∀ x ∈ d :: rest, ¬ x = '$' := fun x hx => h x (List.mem_cons_of_mem c hx)
      simp only [getSubstitution, if_neg hc]
      rw [getSubstitution_of_noDollar m b a (d :: rest) hd]

/-- `findSub` returns the index of an occurrence, and of no occurrence
before it. -/
theorem findSub_some_first (pat : List Char) (s : List Char) :
    ∀ i : Nat, findSub pat s = some i →
      isPrefixOfL pat (List.drop i s) = true
        ∧ ∀ j, j < i → isPrefixOfL pat (List.drop j s) = false := by
  induction s with
  | nil =>
      intro i h
      unfold findSub at h
      split at h
      · rename_i hp
        cases h
        exact ⟨hp, fun j hj => absurd hj (Nat.not_lt_zero j)⟩
      · exact absurd h (by simp)
  | cons c cs ih =>
      intro i h
      unfold findSub at h
      split at h
      · rename_i hp
        cases h
        exact ⟨hp, fun j hj => absurd hj (Nat.not_lt_zero j)⟩
      · rename_i hp
        simp only [Bool.not_eq_true] at hp
        rcases hmap : findSub pat cs with _ | i2
        · rw [hmap] at h
          simp at h
        · rw [hmap] at h
          simp only [Option.map_some'] at h
          obtain ⟨h1, h2⟩ := ih i2 hmap
          cases h
          constructor
          · simpa using h1
          · intro j hj
            cases j with
            | zero => simpa using hp
            | succ j2 =>
                have := h2 j2 (Nat.lt_of_succ_lt_succ hj)
                simpa using this

/-- When `findSub` fails there is no occurrence at any index. -/
theorem findSub_none_no_occurrence (pat : List Char) (s : List Char) :
    findSub pat s = none → ∀ j, isPrefixOfL pat (List.drop j s) = false := by
  induction s with
  | nil =>
      intro h j
      unfold findSub at h
      split at h
      · exact absurd h (by simp)
      · rename_i hp
        simp only [Bool.not_eq_true] at hp
        simpa using hp
  | cons c cs ih =>
      intro h j
      unfold findSub at h
      split at h
      · exact absurd h (by simp)
      · rename_i hp
        simp only [Bool.not_eq_true] at hp
        have hnone : findSub pat cs = none := by
          rcases hmap : findSub pat cs with _ | i2
          · rfl
          · rw [hmap] at h
            simp at h
        cases j with
        | zero => simpa using hp
        | succ j2 => simpa using ih hnone j2

/-- A dollar-free string version of `getSubstitution_of_noDollar`. -/
theorem noDollar_elim (v : String) (h : noDollar v = true) :
    ∀ c ∈ v.data, ¬ c = '$' := by
  intro c hc
  have := List.all_eq_true.mp h c hc
  simpa using this

/-- Invalidating a tag removes every cache entry whose key extends it. -/
theorem cacheLookup_invalidate_none (tag q : List String) (h : tagMatches tag q = true) :
    ∀ c : CacheState, cacheLookup (invalidateMatching tag c) q = none := by
  intro c
  induction c with
  | nil => rfl
  | cons e rest ih =>
      by_cases he : tagMatches tag e.1 = true
      · simpa [invalidateMatching, he] using ih
      · have hne : ¬ e.1 = q := by
          intro hq
          rw [hq] at he
          exact he h
        simp only [invalidateMatching, he, if_neg, if_false]
        simpa [cacheLookup, hne] using ih

/-- The delete/insert invalidation tag matches the Query hook's cache key. -/
theorem tagMatches_invalidation_queryKey (k : String) :
    tagMatches (invalidationTagOf k) (queryKeyOf k) = true := by
  simp [tagMatches, invalidationTagOf, queryKeyOf]

/-! ## Claim theorems -/

/-- C1: evaluating the Query hook at resource key `"users"`, the URL
handed to the transport is `/api/v2/custom_objects/users/users/records/search`
— the resource key appears twice, because `fire` already appends the
key to the base path while the hook's endpoint template repeats
`/{customObjectKey}`.  This differs from the claimed (and
documented Zendesk API) URL `/api/v2/custom_objects/users/records/search`. -/
theorem query_search_url_duplicates_resource_key :
    ((useQueryCustomObjects (Z := Nat) ⟨0⟩
        { customObjectKey := JsValue.jstr "users", filterCriteria := none,
          searchBySingleField := none, refetchOnTabChange := true }).map
        (fun i => i.request.url)
      = Except.ok "/api/v2/custom_objects/users/users/records/search")
    ∧ ("/api/v2/custom_objects/users/users/records/search" : String)
        ≠ "/api/v2/custom_objects/users/records/search" :=
  ⟨by rfl, by decide⟩

/-- C2: whenever both `filterCriteria` and `searchBySingleField` are
present, `useQueryCustomObjects` throws synchronously — either the
invalid-key error or the mutual-exclusion configuration error — so no
query instance is registered and the transport's `fire` is never
reached. -/
theorem query_rejects_both_filters {Z : Type} (ctx : ZafContext Z)
    (k f : JsValue) (sb : SearchBy) (r : Bool) :
    useQueryCustomObjects ctx
        { customObjectKey := k, filterCriteria := some f,
          searchBySingleField := some sb, refetchOnTabChange := r }
      = Except.error "invalid customObjectKey"
    ∨ useQueryCustomObjects ctx
        { customObjectKey := k, filterCriteria := some f,
          searchBySingleField := some sb, refetchOnTabChange := r }
      = Except.error "You must choose either filterCriteria or searchBySingleField" := by
  unfold useQueryCustomObjects
  rcases hk : validNonEmptyString k with _ | s2
  · left
    rfl
  · right
    rfl

/-- C3: with `searchBySingleField = {by: "status", value: "active"}`
and no `filterCriteria`, the effective filter sent as the request body
is `{ $and: [ { custom_object_fields.status: { $eq: "active" } } ] }`;
with neither parameter the effective filter is the empty object. -/
theorem query_effective_filter {Z : Type} (ctx : ZafContext Z) (s : String)
    (h : ¬ s = "") (r : Bool) :
    ((useQueryCustomObjects ctx
        { customObjectKey := JsValue.jstr s, filterCriteria := none,
          searchBySingleField := some ⟨"status", Prim.pstr "active"⟩,
          refetchOnTabChange := r }).map (fun i => i.criteria)
      = Except.ok (JsValue.jobj [("$and", JsValue.jarr
          [JsValue.jobj [("custom_object_fields.status",
            JsValue.jobj [("$eq", JsValue.jstr "active")])]])]))
    ∧ ((useQueryCustomObjects ctx
        { customObjectKey := JsValue.jstr s, filterCriteria := none,
          searchBySingleField := none, refetchOnTabChange := r }).map
        (fun i => i.criteria)
      = Except.ok (JsValue.jobj [])) := by
  constructor <;> simp [useQueryCustomObjects, validNonEmptyString, h, Except.map, Prim.toJs]

/-- Witness for C3 at resource key `"users"`. -/
theorem query_effective_filter_witness :
    (¬ ("users" : String) = "")
    ∧ ((useQueryCustomObjects (Z := Nat) ⟨0⟩
        { customObjectKey := JsValue.jstr "users", filterCriteria := none,
          searchBySingleField := some ⟨"status", Prim.pstr "active"⟩,
          refetchOnTabChange := true }).map (fun i => i.criteria)
      = Except.ok (JsValue.jobj [("$and", JsValue.jarr
          [JsValue.jobj [("custom_object_fields.status",
            JsValue.jobj [("$eq", JsValue.jstr "active")])]])]))
    ∧ ((useQueryCustomObjects (Z := Nat) ⟨0⟩
        { customObjectKey := JsValue.jstr "users", filterCriteria := none,
          searchBySingleField := none, refetchOnTabChange := true }).map
        (fun i => i.criteria)
      = Except.ok (JsValue.jobj [])) :=
  ⟨by decide,
    (query_effective_filter (Z := Nat) ⟨0⟩ "users" (by decide) true).1,
    (query_effective_filter (Z := Nat) ⟨0⟩ "users" (by decide) true).2⟩

/-- C4: path templating of `/records/{id}` with `id = "42"` yields
`/records/42`; query-appending `a = 1, b = "x"` to `/p` yields
`/p?a=1&b=x` in iteration order; each fold step of `convertPathParams`
is one `replace` call; a `replace` call substitutes exactly the first
occurrence of the pattern (no occurrence before the found index, later
text — including later occurrences — kept unchanged), the replacement
inserted verbatim for dollar-free values; and when the placeholder is
absent the template is returned unchanged. -/
theorem templating_first_occurrence_only :
    (convertPathParams "/records/\x7bid\x7d" [("id", Prim.pstr "42")] = "/records/42")
    ∧ (convertQueryParams "/p" [("a", Prim.pnum 1), ("b", Prim.pstr "x")] = "/p?a=1&b=x")
    ∧ (∀ (t : String) (kv : String × Prim) (rest : List (String × Prim)),
        convertPathParams t (kv :: rest)
          = convertPathParams (replaceFirstStr t ("\x7b" ++ kv.1 ++ "\x7d") kv.2.toStr) rest)
    ∧ (∀ (t pat v : String) (i : Nat), noDollar v = true →
        findSub pat.data t.data = some i →
          isPrefixOfL pat.data (t.data.drop i) = true
            ∧ (∀ j, j < i → isPrefixOfL pat.data (t.data.drop j) = false)
            ∧ replaceFirstStr t pat v
                = String.mk (t.data.take i ++ v.data ++ t.data.drop (i + pat.length)))
    ∧ (∀ (t pat v : String), findSub pat.data t.data = none → replaceFirstStr t pat v = t) := by
  refine ⟨by decide, by decide, fun t kv rest => rfl, ?_, ?_⟩
  · intro t pat v i hv hfind
    obtain ⟨h1, h2⟩ := findSub_some_first pat.data t.data i hfind
    refine ⟨h1, h2, ?_⟩
    unfold replaceFirstStr
    rw [hfind]
    simp only [getSubstitution_of_noDollar _ _ _ _ (noDollar_elim v hv)]
  · intro t pat v hfind
    unfold replaceFirstStr
    rw [hfind]

/-- Witness for C4 on concrete inputs: the template `/r/\x7bk\x7d/\x7bk\x7d`
contains the placeholder twice; only the occurrence at index 3 is
replaced; and an absent pattern leaves the template unchanged. -/
theorem templating_first_occurrence_only_witness :
    (noDollar "42" = true)
    ∧ (findSub "\x7bk\x7d".data "/r/\x7bk\x7d/\x7bk\x7d".data = some 3)
    ∧ (isPrefixOfL "\x7bk\x7d".data ("/r/\x7bk\x7d/\x7bk\x7d".data.drop 3) = true
        ∧ (∀ j, j < 3 → isPrefixOfL "\x7bk\x7d".data ("/r/\x7bk\x7d/\x7bk\x7d".data.drop j) = false)
        ∧ replaceFirstStr "/r/\x7bk\x7d/\x7bk\x7d" "\x7bk\x7d" "42"
            = String.mk ("/r/\x7bk\x7d/\x7bk\x7d".data.take 3 ++ "42".data
                ++ "/r/\x7bk\x7d/\x7bk\x7d".data.drop (3 + "\x7bk\x7d".length)))
    ∧ (findSub "\x7bz\x7d".data "/records".data = none)
    ∧ (replaceFirstStr "/records" "\x7bz\x7d" "42" = "/records") :=
  ⟨by decide, by decide,
    templating_first_occurrence_only.2.2.2.1 "/r/\x7bk\x7d/\x7bk\x7d" "\x7bk\x7d" "42" 3
      (by decide) (by decide),
    by decide,
    templating_first_occurrence_only.2.2.2.2 "/records" "\x7bz\x7d" "42" (by decide)⟩

/-- C5: each of the four hooks rejects a resource key that is the empty
string or not a string with an immediate synchronous error at
construction time; no hook instance (and hence no request) exists. -/
theorem hooks_reject_invalid_key {Z : Type} (ctx : ZafContext Z) (k : JsValue)
    (fc : Option JsValue) (sb : Option SearchBy) (r b1 b2 b3 : Bool)
    (h : k = JsValue.jstr "" ∨ isString k = false) :
    useQueryCustomObjects ctx
        { customObjectKey := k, filterCriteria := fc,
          searchBySingleField := sb, refetchOnTabChange := r }
      = Except.error "invalid customObjectKey"
    ∧ usePostCustomObjects ctx k b1 = Except.error "invalid customObjectKey"
    ∧ useUpdateCustomObjects ctx k b2 b3 = Except.error "invalid customObjectKey"
    ∧ useDeleteCustomObjects ctx k b2 b3 = Except.error "invalid customObjectKey" := by
  have hk : validNonEmptyString k = none := by
    rcases h with rfl | h
    · rfl
    · cases k with
      | jstr s => simp [isString] at h
      | jnull => rfl
      | jbool b => rfl
      | jnum n => rfl
      | jarr xs => rfl
      | jobj fs => rfl
  refine ⟨?_, ?_, ?_, ?_⟩ <;>
    simp [useQueryCustomObjects, usePostCustomObjects, useUpdateCustomObjects,
      useDeleteCustomObjects, hk]

/-- Witness for C5 at the empty-string key. -/
theorem hooks_reject_invalid_key_witness :
    (JsValue.jstr "" = JsValue.jstr "" ∨ isString (JsValue.jstr "") = false)
    ∧ useQueryCustomObjects (Z := Nat) ⟨0⟩
        { customObjectKey := JsValue.jstr "", filterCriteria := none,
          searchBySingleField := none, refetchOnTabChange := true }
      = Except.error "invalid customObjectKey"
    ∧ usePostCustomObjects (Z := Nat) ⟨0⟩ (JsValue.jstr "") true
      = Except.error "invalid customObjectKey"
    ∧ useUpdateCustomObjects (Z := Nat) ⟨0⟩ (JsValue.jstr "") true true
      = Except.error "invalid customObjectKey"
    ∧ useDeleteCustomObjects (Z := Nat) ⟨0⟩ (JsValue.jstr "") true true
      = Except.error "invalid customObjectKey" :=
  have h := hooks_reject_invalid_key (Z := Nat) ⟨0⟩ (JsValue.jstr "")
    none none true true true true (Or.inl rfl)
  ⟨Or.inl rfl, h.1, h.2.1, h.2.2.1, h.2.2.2⟩

/-- C6: the Insert hook's `mutationFn` rejects
`name = "", custom_object_fields = {a: 1}` with a validation error and
no request, while `name = "x", custom_object_fields = {}` passes
validation (an empty mapping is a truthy object) and yields the POST
request to `/api/v2/custom_objects/KEY/records`. -/
theorem insert_validation_boundary {Z : Type} (ctx : ZafContext Z) (k : String) :
    insertMutationFn ctx k
        { name := JsValue.jstr "", custom_object_fields := JsValue.jobj [("a", JsValue.jnum 1)] }
      = Except.error "name is required and must be a string"
    ∧ ∃ req : Request Z,
        insertMutationFn ctx k { name := JsValue.jstr "x", custom_object_fields := JsValue.jobj [] }
          = Except.ok req
        ∧ req.method = "POST"
        ∧ req.body = some (stringifyJs (JsValue.jobj [("custom_object_record", JsValue.jobj
            [("name", JsValue.jstr "x"), ("custom_object_fields", JsValue.jobj [])])])) :=
  ⟨rfl, ⟨_, rfl, rfl, rfl⟩⟩

/-- C7 (counterexample): an adapter constructed with configured timeout
`0` issues its request with timeout `15000`, not with the configured
value — `timeout || 15000` treats `0` as absent — refuting the claim
that the request timeout always equals the configured timeout when one
is supplied. -/
theorem fire_timeout_zero_counterexample :
    (NetworkConnector.mk (0 : Nat) "users" (some 0)).timeout = some 0
    ∧ (fire (NetworkConnector.mk (0 : Nat) "users" (some 0)) (ZafContext.mk (0 : Nat))
        { data := JsValue.jnull, endpoint := "/records", pathParams := none,
          params := none, method := "POST" }).timeout = 15000
    ∧ (15000 : Nat) ≠ 0 :=
  ⟨rfl, rfl, by decide⟩

/-- C7 (amended): every request built by `fire` carries the fixed
`Content-Type: application/json` header and the secure flag; its
timeout is the adapter's configured timeout when that is supplied and
nonzero, and `15000` when none is supplied or the configured value is
`0`; its body is the JSON serialization of `data` unless `data` is
exactly `null`, in which case the body is omitted. -/
theorem fire_request_shape {A Z : Type} (o : NetworkConnector A)
    (ctx : ZafContext Z) (p : FirePayload) :
    (fire o ctx p).headers = [("Content-Type", "application/json")]
    ∧ (fire o ctx p).secure = true
    ∧ (∀ t, o.timeout = some t → ¬ t = 0 → (fire o ctx p).timeout = t)
    ∧ (o.timeout = none ∨ o.timeout = some 0 → (fire o ctx p).timeout = 15000)
    ∧ (p.data = JsValue.jnull → (fire o ctx p).body = none)
    ∧ (¬ p.data = JsValue.jnull → (fire o ctx p).body = some (stringifyJs p.data)) := by
  refine ⟨rfl, rfl, ?_, ?_, ?_, ?_⟩
  · intro t ht htz
    simp [fire, ht, htz]
  · rintro (ht | ht)
    · simp [fire, ht]
    · simp [fire, ht]
  · intro h
    simp [fire, h, JsValue.isNull]
  · intro h
    have hnull : p.data.isNull = false := by
      cases hd : p.data <;> first
        | rfl
        | exact absurd hd h
    simp [fire, hnull]

/-- Witness for C7 (amended): a configured timeout of `7000` is used as
is; an absent timeout defaults to `15000`; a non-null body is
serialized; a `null` body is omitted. -/
theorem fire_request_shape_witness :
    ((some 7000 : Option Nat) = some 7000)
    ∧ (¬ (7000 : Nat) = 0)
    ∧ (fire (NetworkConnector.mk (0 : Nat) "users" (some 7000)) (ZafContext.mk (0 : Nat))
        { data := JsValue.jobj [], endpoint := "/records", pathParams := none,
          params := none, method := "POST" }).timeout = 7000
    ∧ ((none : Option Nat) = none ∨ (none : Option Nat) = some 0)
    ∧ (fire (NetworkConnector.mk (0 : Nat) "users" none) (ZafContext.mk (0 : Nat))
        { data := JsValue.jobj [], endpoint := "/records", pathParams := none,
          params := none, method := "POST" }).timeout = 15000
    ∧ (¬ JsValue.jobj [] = JsValue.jnull)
    ∧ (fire (NetworkConnector.mk (0 : Nat) "users" none) (ZafContext.mk (0 : Nat))
        { data := JsValue.jobj [], endpoint := "/records", pathParams := none,
          params := none, method := "POST" }).body = some (stringifyJs (JsValue.jobj []))
    ∧ (JsValue.jnull = JsValue.jnull)
    ∧ (fire (NetworkConnector.mk (0 : Nat) "users" none) (ZafContext.mk (0 : Nat))
        { data := JsValue.jnull, endpoint := "/records", pathParams := none,
          params := none, method := "DELETE" }).body = none :=
  ⟨rfl, by decide,
    (fire_request_shape (NetworkConnector.mk (0 : Nat) "users" (some 7000))
      (ZafContext.mk (0 : Nat)) _).2.2.1 7000 rfl (by decide),
    Or.inl rfl,
    (fire_request_shape (NetworkConnector.mk (0 : Nat) "users" none)
      (ZafContext.mk (0 : Nat)) _).2.2.2.1 (Or.inl rfl),
    fun hh => JsValue.noConfusion hh,
    (fire_request_shape (NetworkConnector.mk (0 : Nat) "users" none)
      (ZafContext.mk (0 : Nat)) _).2.2.2.2.2 (fun hh => JsValue.noConfusion hh),
    rfl,
    (fire_request_shape (NetworkConnector.mk (0 : Nat) "users" none)
      (ZafContext.mk (0 : Nat)) _).2.2.2.2.1 rfl⟩

/-- C8: on a successful Delete, the `onSuccess` handler produces, in this
fixed order: the success callback (when provided), the invalidation of
the resource tag, then the post-success callback (when provided); and
after running these events the read cache holds no entry for the Query
hook's cache key for the same resource key, so a subsequent Query must
fetch afresh instead of returning a stale cached value. -/
theorem delete_success_order_and_invalidates (k : String)
    (hasOnSuccessFn hasPostActionFn : Bool) (c : CacheState) :
    deleteOnSuccessEvents k hasOnSuccessFn hasPostActionFn
      = (if hasOnSuccessFn then [HookEvent.onSuccessCall none] else [])
        ++ [HookEvent.invalidateTag (invalidationTagOf k)]
        ++ (if hasPostActionFn then [HookEvent.postActionCall] else [])
    ∧ cacheLookup (runEvents c (deleteOnSuccessEvents k hasOnSuccessFn hasPostActionFn))
        (queryKeyOf k) = none := by
  constructor
  · rfl
  · have hmatch := tagMatches_invalidation_queryKey k
    cases hasOnSuccessFn
    · cases hasPostActionFn
      · simpa [deleteOnSuccessEvents, runEvents, applyEvent] using
          cacheLookup_invalidate_none _ _ hmatch c
      · simpa [deleteOnSuccessEvents, runEvents, applyEvent] using
          cacheLookup_invalidate_none _ _ hmatch c
    · cases hasPostActionFn
      · simpa [deleteOnSuccessEvents, runEvents, applyEvent] using
          cacheLookup_invalidate_none _ _ hmatch c
      · simpa [deleteOnSuccessEvents, runEvents, applyEvent] using
          cacheLookup_invalidate_none _ _ hmatch c

/-- C9: on a successful Update, the `onSuccess` handler invokes the
success callback with the updated identifier and then the post-success
callback, strictly in that order; it emits no invalidation event, and
running its events leaves the read cache unchanged. -/
theorem update_success_order_no_invalidation (id : String)
    (hasOnSuccessFn hasPostActionFn : Bool) (c : CacheState) :
    updateOnSuccessEvents id hasOnSuccessFn hasPostActionFn
      = (if hasOnSuccessFn then [HookEvent.onSuccessCall (some id)] else [])
        ++ (if hasPostActionFn then [HookEvent.postActionCall] else [])
    ∧ (updateOnSuccessEvents id hasOnSuccessFn hasPostActionFn).all
        (fun e => !isInvalidateEvent e) = true
    ∧ runEvents c (updateOnSuccessEvents id hasOnSuccessFn hasPostActionFn) = c := by
  refine ⟨rfl, ?_, ?_⟩
  · cases hasOnSuccessFn
    · cases hasPostActionFn
      · rfl
      · rfl
    · cases hasPostActionFn
      · rfl
      · rfl
  · cases hasOnSuccessFn
    · cases hasPostActionFn
      · rfl
      · rfl
    · cases hasPostActionFn
      · rfl
      · rfl

/-- C10: the request built by `fire` never depends on the `zaf` field of
the options object handed to `createNetworkClient` — only on the
resource key, the configured timeout, the context-provided transport
handle, and the payload.  Two connectors whose `zaf` fields differ in
value or even in type (as for the Delete hook, which passes the whole
context object instead of the unwrapped handle) produce the same
transport call. -/
theorem fire_ignores_options_zaf {A B Z : Type} (o1 : NetworkConnector A)
    (o2 : NetworkConnector B) (ctx : ZafContext Z) (p : FirePayload)
    (hk : o1.customObjectKey = o2.customObjectKey) (ht : o1.timeout = o2.timeout) :
    fire o1 ctx p = fire o2 ctx p := by
  unfold fire
  rw [hk, ht]

/-- Witness for C10: a connector holding the bare handle and a connector
holding the whole context record (the Delete hook's shape) yield the
same request. -/
theorem fire_ignores_options_zaf_witness :
    ((NetworkConnector.mk (0 : Nat) "users" none).customObjectKey
        = (NetworkConnector.mk (ZafContext.mk (0 : Nat)) "users" none).customObjectKey)
    ∧ ((NetworkConnector.mk (0 : Nat) "users" none).timeout
        = (NetworkConnector.mk (ZafContext.mk (0 : Nat)) "users" none).timeout)
    ∧ fire (NetworkConnector.mk (0 : Nat) "users" none) (ZafContext.mk (5 : Nat))
        { data := JsValue.jnull, endpoint := "/records/\x7bid\x7d",
          pathParams := some [("id", Prim.pstr "42")], params := none, method := "DELETE" }
      = fire (NetworkConnector.mk (ZafContext.mk (0 : Nat)) "users" none) (ZafContext.mk (5 : Nat))
        { data := JsValue.jnull, endpoint := "/records/\x7bid\x7d",
          pathParams := some [("id", Prim.pstr "42")], params := none, method := "DELETE" } :=
  ⟨rfl, rfl,
    fire_ignores_options_zaf (NetworkConnector.mk (0 : Nat) "users" none)
      (NetworkConnector.mk (ZafContext.mk (0 : Nat)) "users" none)
      (ZafContext.mk (5 : Nat))
      { data := JsValue.jnull, endpoint := "/records/\x7bid\x7d",
        pathParams := some [("id", Prim.pstr "42")], params := none, method := "DELETE" }
      rfl rfl⟩

end Zendesk

